import Mathlib

/-!
Verification of the geiger pulse-aggregator core (`geiger.py`, `app.py`,
`main.py`).

Shallow embedding conventions:
* timestamps (Python `float` values produced by `time.time()` and compared /
  subtracted exactly) are modelled as rationals `ℚ`;
* counters (Python `int`) are `ℕ`;
* `self.deltas[-k:]` / `self.per_second[-k:]` (Python negative slicing) is
  modelled by `pySliceLast`, including Python's `xs[-0:] = xs` behaviour;
* the `snapshot` dictionary is the structure `Snapshot`; its `rate_err`
  field involves `math.sqrt` and is modelled separately as a real number;
* Python truthiness of `Optional[float]` (`if self.last_ts`) is modelled
  explicitly: `None` and `0` are falsy, everything else truthy.
-/

namespace Geiger

/-- The buffer capacities of `GeigerConfig` (geiger.py lines 12-19); the pin
and mock fields do not affect the aggregator. -/
structure GeigerConfig where
  max_deltas : ℕ
  max_series : ℕ
  deriving DecidableEq, Repr

/-- The mutable fields of the Python `GeigerState` (geiger.py lines 33-46). -/
structure GeigerState where
  t0 : ℚ
  total : ℕ
  last_ts : Option ℚ
  deltas : List ℚ
  per_second : List ℕ
  current_second_count : ℕ
  deriving DecidableEq, Repr

/-- Python `xs[-k:]`: the last `k` elements for `k ≥ 1`, but the WHOLE list
for `k = 0` (since `xs[-0:]` is `xs[0:]`). -/
def pySliceLast (xs : List α) (k : ℕ) : List α :=
  if k = 0 then xs else xs.drop (xs.length - k)

/-- The trimming pattern `if len(xs) > m: xs = xs[-m:]` used by `on_pulse`
(geiger.py lines 55-56) and `tick_second` (lines 65-66). -/
def capList (m : ℕ) (xs : List α) : List α :=
  if xs.length > m then pySliceLast xs m else xs

/-- `GeigerState.reset` (geiger.py lines 39-46): reinitialise every field,
with `now` standing for the `time.time()` call that sets `t0`. -/
def GeigerState.reset (_s : GeigerState) (now : ℚ) : GeigerState :=
  { t0 := now
    total := 0
    last_ts := none
    deltas := []
    per_second := []
    current_second_count := 0 }

/-- The state of a freshly constructed `GeigerState` (its `__init__` calls
`reset`, geiger.py lines 34-37). -/
def freshState (now : ℚ) : GeigerState :=
  { t0 := now
    total := 0
    last_ts := none
    deltas := []
    per_second := []
    current_second_count := 0 }

/-- `GeigerState.on_pulse(ts)` (geiger.py lines 48-59): increment `total`; if
a previous timestamp exists and `dt = ts - last_ts ≥ 0`, append `dt` to
`deltas` and trim to `max_deltas`; unconditionally set `last_ts := ts` and
increment the open-bin counter. -/
def GeigerState.on_pulse (cfg : GeigerConfig) (s : GeigerState) (ts : ℚ) :
    GeigerState :=
  let deltas :=
    match s.last_ts with
    | none => s.deltas
    | some lt =>
        if 0 ≤ ts - lt then capList cfg.max_deltas (s.deltas ++ [ts - lt])
        else s.deltas
  { s with
    total := s.total + 1
    deltas := deltas
    last_ts := some ts
    current_second_count := s.current_second_count + 1 }

/-- `GeigerState.tick_second` (geiger.py lines 61-66): append the open-bin
count to `per_second`, zero the open-bin counter, trim to `max_series`. -/
def GeigerState.tick_second (cfg : GeigerConfig) (s : GeigerState) :
    GeigerState :=
  { s with
    per_second := capList cfg.max_series (s.per_second ++ [s.current_second_count])
    current_second_count := 0 }

/-- The dictionary returned by `GeigerState.snapshot` (geiger.py lines
87-96), except for the `rate_err` entry, which involves `math.sqrt` and is
modelled separately by `GeigerState.rate_err`. -/
structure Snapshot where
  total : ℕ
  elapsed : ℚ
  last_age : Option ℚ
  per_second : List ℕ
  running_mean : List ℚ
  rate_bq : ℚ
  deltas : List ℚ
  deriving DecidableEq, Repr

/-- The running-mean loop of `snapshot` (geiger.py lines 79-83): `s` is the
accumulator and `i` the number of elements already consumed, so the element
produced for `c` is `(s + c) / (i + 1)`. -/
def runningMeanAux (s : ℚ) (i : ℕ) : List ℕ → List ℚ
  | [] => []
  | c :: rest => ((s + c) / (i + 1)) :: runningMeanAux (s + c) (i + 1) rest

/-- `running_mean` as computed by `snapshot`, starting from `s = 0`. -/
def runningMean (ps : List ℕ) : List ℚ :=
  runningMeanAux 0 0 ps

/-- `GeigerState.snapshot` (geiger.py lines 68-96), with `now` standing for
the `time.time()` call.  Note `last_age` uses Python TRUTHINESS
(`if self.last_ts`): it is `none` both when `last_ts` is `None` and when
`last_ts == 0`. -/
def GeigerState.snapshot (s : GeigerState) (now : ℚ) : Snapshot :=
  let elapsed := max 0 (now - s.t0)
  { total := s.total
    elapsed := elapsed
    last_age :=
      match s.last_ts with
      | none => none
      | some lt => if lt = 0 then none else some (now - lt)
    per_second := s.per_second
    running_mean := runningMean s.per_second
    rate_bq := if 0 < elapsed then (s.total : ℚ) / elapsed else 0
    deltas := s.deltas }

/-- The `rate_err` entry of the `snapshot` dictionary (geiger.py lines
73-77): `sqrt(total) / elapsed` when `elapsed > 0` and `total > 0`, else
`0`. -/
noncomputable def GeigerState.rate_err (s : GeigerState) (now : ℚ) : ℝ :=
  let elapsed := max 0 (now - s.t0)
  if 0 < elapsed then
    (if 0 < s.total then Real.sqrt (s.total : ℝ) / (elapsed : ℝ) else 0)
  else 0

/-- The reachable aggregator states for a fixed configuration: any finite
sequence of `on_pulse`, `tick_second` and `reset` operations starting from a
freshly constructed state. -/
inductive Reachable (cfg : GeigerConfig) : GeigerState → Prop
  | fresh (now : ℚ) : Reachable cfg (freshState now)
  | pulse {s : GeigerState} (ts : ℚ) : Reachable cfg s →
      Reachable cfg (s.on_pulse cfg ts)
  | tick {s : GeigerState} : Reachable cfg s →
      Reachable cfg (s.tick_second cfg)
  | reset {s : GeigerState} (now : ℚ) : Reachable cfg s →
      Reachable cfg (s.reset now)

/-- Feeding a sequence of pulses, in order, into a state. -/
def feedPulses (cfg : GeigerConfig) (s : GeigerState) (ts : List ℚ) :
    GeigerState :=
  ts.foldl (GeigerState.on_pulse cfg) s

/-- Iterating `tick_second` `k` times. -/
def tickIter (cfg : GeigerConfig) : ℕ → GeigerState → GeigerState
  | 0, s => s
  | k + 1, s => tickIter cfg k (s.tick_second cfg)

/-! ### Basic lemmas about the trimming helper and `on_pulse` -/

theorem capList_length_le {m : ℕ} (hm : 1 ≤ m) (xs : List α) :
    (capList m xs).length ≤ m := by
  unfold capList pySliceLast
  split
  · rw [if_neg (by omega)]
    simp only [List.length_drop]
    omega
  · omega

theorem capList_length {m : ℕ} (hm : 1 ≤ m) (xs : List α) :
    (capList m xs).length = min xs.length m := by
  unfold capList pySliceLast
  split
  · rw [if_neg (by omega)]
    simp only [List.length_drop]
    omega
  · omega

theorem capList_of_length_le {m : ℕ} (xs : List α) (h : xs.length ≤ m) :
    capList m xs = xs := by
  unfold capList
  rw [if_neg (by omega)]

theorem capList_concat_getLast (m : ℕ) (xs : List α) (a : α) :
    (capList m (xs ++ [a])).getLast? = some a := by
  unfold capList pySliceLast
  split
  · split
    · exact List.getLast?_concat xs
    · rw [List.drop_append_of_le_length (by simp; omega)]
      exact List.getLast?_concat _
  · exact List.getLast?_concat xs

theorem on_pulse_total (cfg : GeigerConfig) (s : GeigerState) (ts : ℚ) :
    (s.on_pulse cfg ts).total = s.total + 1 := rfl

theorem on_pulse_last_ts (cfg : GeigerConfig) (s : GeigerState) (ts : ℚ) :
    (s.on_pulse cfg ts).last_ts = some ts := rfl

theorem on_pulse_count (cfg : GeigerConfig) (s : GeigerState) (ts : ℚ) :
    (s.on_pulse cfg ts).current_second_count = s.current_second_count + 1 :=
  rfl

theorem on_pulse_per_second (cfg : GeigerConfig) (s : GeigerState) (ts : ℚ) :
    (s.on_pulse cfg ts).per_second = s.per_second := rfl

theorem on_pulse_deltas_of_none (cfg : GeigerConfig) {s : GeigerState}
    (ts : ℚ) (h : s.last_ts = none) : (s.on_pulse cfg ts).deltas = s.deltas := by
  simp only [GeigerState.on_pulse, h]

theorem on_pulse_deltas_of_ge (cfg : GeigerConfig) {s : GeigerState}
    {ts lt : ℚ} (h : s.last_ts = some lt) (hge : lt ≤ ts) :
    (s.on_pulse cfg ts).deltas = capList cfg.max_deltas (s.deltas ++ [ts - lt]) := by
  simp only [GeigerState.on_pulse, h]
  rw [if_pos (by linarith)]

theorem on_pulse_deltas_of_lt (cfg : GeigerConfig) {s : GeigerState}
    {ts lt : ℚ} (h : s.last_ts = some lt) (hlt : ts < lt) :
    (s.on_pulse cfg ts).deltas = s.deltas := by
  simp only [GeigerState.on_pulse, h]
  rw [if_neg (by linarith)]

/-! ### Buffer-bound invariant (claim C1) -/

/-- C1, counterexample: the bound `len(deltas) ≤ max_deltas` FAILS on the code
when `max_deltas = 0`, because the Python trim `self.deltas[-0:]` is the whole
list.  Two pulses at timestamp `0` from a fresh state with
`max_deltas = max_series = 0` reach a state with one stored delta. -/
theorem c1_zero_capacity_violates_bound :
    Reachable ⟨0, 0⟩ (((freshState 0).on_pulse ⟨0, 0⟩ 0).on_pulse ⟨0, 0⟩ 0) ∧
      ¬ ((((freshState 0).on_pulse ⟨0, 0⟩ 0).on_pulse ⟨0, 0⟩ 0).deltas.length ≤
          (⟨0, 0⟩ : GeigerConfig).max_deltas) :=
  ⟨Reachable.pulse 0 (Reachable.pulse 0 (Reachable.fresh 0)), by
    simp [GeigerState.on_pulse, freshState, capList, pySliceLast]⟩

/-- C1 (amended with `1 ≤ max_deltas` and `1 ≤ max_series`): every reachable
aggregator state keeps `len(deltas) ≤ max_deltas` and
`len(per_second) ≤ max_series`, the appends being trimmed by evicting the
oldest entries. -/
theorem reachable_buffer_bounds (cfg : GeigerConfig) (s : GeigerState)
    (hd : 1 ≤ cfg.max_deltas) (hs : 1 ≤ cfg.max_series)
    (h : Reachable cfg s) :
    s.deltas.length ≤ cfg.max_deltas ∧
      s.per_second.length ≤ cfg.max_series := by
  induction h with
  | fresh now => exact ⟨by simp [freshState], by simp [freshState]⟩
  | @pulse s ts _ ih =>
      refine ⟨?_, by rw [on_pulse_per_second]; exact ih.2⟩
      cases hl : s.last_ts with
      | none => rw [on_pulse_deltas_of_none cfg ts hl]; exact ih.1
      | some lt =>
          rcases le_or_lt lt ts with hge | hlt
          · rw [on_pulse_deltas_of_ge cfg hl hge]
            exact capList_length_le hd _
          · rw [on_pulse_deltas_of_lt cfg hl hlt]; exact ih.1
  | @tick s _ ih =>
      exact ⟨ih.1, capList_length_le hs _⟩
  | reset now _ => exact ⟨by simp [GeigerState.reset], by simp [GeigerState.reset]⟩

/-- Witness for `reachable_buffer_bounds` at the configuration `⟨1, 1⟩` and
the state freshly constructed at time `0`. -/
theorem reachable_buffer_bounds_witness :
    (freshState 0).deltas.length ≤ (⟨1, 1⟩ : GeigerConfig).max_deltas ∧
      (freshState 0).per_second.length ≤ (⟨1, 1⟩ : GeigerConfig).max_series :=
  reachable_buffer_bounds ⟨1, 1⟩ (freshState 0) (by decide) (by decide)
    (Reachable.fresh 0)

/-! ### Pulse counting with non-decreasing timestamps (claim C2) -/

/-- Inductive core for C2: feeding a chain of non-decreasing timestamps into
a state that already saw `l`, the total grows by the number of pulses and the
delta-buffer length saturates at `max_deltas`. -/
theorem feedPulses_chain (cfg : GeigerConfig) (hd : 1 ≤ cfg.max_deltas) :
    ∀ (ts : List ℚ) (s : GeigerState) (l : ℚ), s.last_ts = some l →
      List.Chain (· ≤ ·) l ts → s.deltas.length ≤ cfg.max_deltas →
      (feedPulses cfg s ts).total = s.total + ts.length ∧
        (feedPulses cfg s ts).deltas.length =
          min (s.deltas.length + ts.length) cfg.max_deltas := by
  intro ts
  induction ts with
  | nil =>
      intro s l _ _ hle
      constructor
      · simp [feedPulses]
      · simp only [feedPulses, List.foldl_nil, List.length_nil]
        omega
  | cons t rest ih =>
      intro s l hl hchain hle
      rcases hchain with _ | ⟨hlt, hchain⟩
      have hstep : (s.on_pulse cfg t).deltas =
          capList cfg.max_deltas (s.deltas ++ [t - l]) :=
        on_pulse_deltas_of_ge cfg hl hlt
      have hlen : (s.on_pulse cfg t).deltas.length =
          min (s.deltas.length + 1) cfg.max_deltas := by
        rw [hstep, capList_length hd]
        simp
      obtain ⟨h1, h2⟩ := ih (s.on_pulse cfg t) t (on_pulse_last_ts cfg s t)
        hchain (by omega)
      have hfold : feedPulses cfg s (t :: rest) =
          feedPulses cfg (s.on_pulse cfg t) rest := rfl
      refine ⟨?_, ?_⟩
      · rw [hfold, h1, on_pulse_total]
        simp only [List.length_cons]
        omega
      · rw [hfold, h2, hlen]
        simp only [List.length_cons]
        omega

/-- C2, counterexample: with `max_deltas = 0`, two pulses at the
non-decreasing timestamps `0, 0` from a freshly reset state give `total = 2`
but `len(deltas) = 1 ≠ min(2 − 1, 0)` (the Python trim `[-0:]` evicts
nothing). -/
theorem c2_zero_capacity_violates_min :
    List.Chain (· ≤ ·) (0 : ℚ) [0] ∧
      (feedPulses ⟨0, 0⟩ ((freshState 0).reset 0) [0, 0]).total = 2 ∧
      ¬ ((feedPulses ⟨0, 0⟩ ((freshState 0).reset 0) [0, 0]).deltas.length =
          min (([0, 0] : List ℚ).length - 1) (⟨0, 0⟩ : GeigerConfig).max_deltas) :=
  ⟨List.Chain.cons (le_refl 0) (List.Chain.nil),
    by simp [feedPulses, GeigerState.on_pulse, GeigerState.reset, freshState,
      capList, pySliceLast],
    by simp [feedPulses, GeigerState.on_pulse, GeigerState.reset, freshState,
      capList, pySliceLast]⟩

/-- C2 (amended with `1 ≤ max_deltas`): starting from a freshly reset state,
after the `N ≥ 1` pulses `t :: ts` with non-decreasing timestamps and no
intervening reset, `total = N` and `len(deltas) = min (N − 1) max_deltas`. -/
theorem feedPulses_total_and_deltas (cfg : GeigerConfig) (s0 : GeigerState)
    (now t : ℚ) (ts : List ℚ) (hd : 1 ≤ cfg.max_deltas)
    (hchain : List.Chain (· ≤ ·) t ts) :
    (feedPulses cfg (s0.reset now) (t :: ts)).total = (t :: ts).length ∧
      (feedPulses cfg (s0.reset now) (t :: ts)).deltas.length =
        min ((t :: ts).length - 1) cfg.max_deltas := by
  have hfold : feedPulses cfg (s0.reset now) (t :: ts) =
      feedPulses cfg ((s0.reset now).on_pulse cfg t) ts := rfl
  obtain ⟨h1, h2⟩ := feedPulses_chain cfg hd ts ((s0.reset now).on_pulse cfg t) t
    rfl hchain (by simp [GeigerState.reset, GeigerState.on_pulse])
  constructor
  · rw [hfold, h1]
    simp only [GeigerState.reset, GeigerState.on_pulse, List.length_cons]
    omega
  · rw [hfold, h2]
    simp only [GeigerState.reset, GeigerState.on_pulse, List.length_cons,
      List.length_nil]
    omega

/-- Witness for `feedPulses_total_and_deltas`: timestamps `1, 2, 3` with the
default capacities give `total = 3` and two stored deltas. -/
theorem feedPulses_total_and_deltas_witness :
    (feedPulses ⟨2000, 3600⟩ ((freshState 0).reset 0) [1, 2, 3]).total =
        ([1, 2, 3] : List ℚ).length ∧
      (feedPulses ⟨2000, 3600⟩ ((freshState 0).reset 0) [1, 2, 3]).deltas.length =
        min (([1, 2, 3] : List ℚ).length - 1) (⟨2000, 3600⟩ : GeigerConfig).max_deltas :=
  feedPulses_total_and_deltas ⟨2000, 3600⟩ (freshState 0) 0 1 [2, 3] (by decide)
    (List.Chain.cons (by norm_num) (List.Chain.cons (by norm_num) List.Chain.nil))

/-! ### Snapshot rate and rate error (claim C3) -/

/-- C3: `snapshot` returns `rate = total / elapsed` when `elapsed > 0` and
`0` otherwise, and `rate_err = sqrt(total) / elapsed` when `total > 0` and
`0` otherwise; in particular `total = 100`, `elapsed = 10` gives
`rate = 10` and `rate_err = 1`. -/
theorem snapshot_rate_and_err :
    (∀ (s : GeigerState) (now : ℚ),
      (s.snapshot now).rate_bq =
          (if 0 < (s.snapshot now).elapsed then
            (s.total : ℚ) / (s.snapshot now).elapsed else 0) ∧
        s.rate_err now =
          (if 0 < s.total then
            Real.sqrt (s.total : ℝ) / (((s.snapshot now).elapsed : ℚ) : ℝ)
          else 0)) ∧
      ((⟨0, 100, some 1, [], [], 0⟩ : GeigerState).snapshot 10).rate_bq = 10 ∧
      (⟨0, 100, some 1, [], [], 0⟩ : GeigerState).rate_err 10 = 1 := by
  refine ⟨fun s now => ⟨rfl, ?_⟩, ?_, ?_⟩
  · by_cases h : 0 < max 0 (now - s.t0)
    · simp [GeigerState.rate_err, GeigerState.snapshot, h]
    · have h0 : max 0 (now - s.t0) = 0 :=
        le_antisymm (not_lt.1 h) (le_max_left 0 _)
      have h0R : (((max 0 (now - s.t0) : ℚ)) : ℝ) = 0 := by rw [h0]; norm_num
      simp [GeigerState.rate_err, GeigerState.snapshot, h, h0R, div_zero]
  · norm_num [GeigerState.snapshot]
  · have hs : Real.sqrt (100 : ℝ) = 10 := by
      rw [show (100 : ℝ) = 10 ^ 2 by norm_num,
        Real.sqrt_sq (by norm_num : (0 : ℝ) ≤ 10)]
    norm_num [GeigerState.rate_err, hs]

/-! ### Reset idempotence (claim C7) -/

/-- C7: one `reset` — and equally a second consecutive `reset` — yields
`total = 0`, empty `deltas` and `per_second`, a zero open-bin counter, no
last timestamp, and an immediately following `snapshot` reports
`elapsed = 0`; moreover the second reset produces exactly the state a single
reset at its time would. -/
theorem reset_idempotent (s : GeigerState) (now now2 : ℚ) :
    ((s.reset now).total = 0 ∧ (s.reset now).deltas = [] ∧
      (s.reset now).per_second = [] ∧
      (s.reset now).current_second_count = 0 ∧
      (s.reset now).last_ts = none ∧
      ((s.reset now).snapshot now).elapsed = 0) ∧
    (((s.reset now).reset now2).total = 0 ∧
      ((s.reset now).reset now2).deltas = [] ∧
      ((s.reset now).reset now2).per_second = [] ∧
      ((s.reset now).reset now2).current_second_count = 0 ∧
      ((s.reset now).reset now2).last_ts = none ∧
      (((s.reset now).reset now2).snapshot now2).elapsed = 0) ∧
    (s.reset now).reset now2 = s.reset now2 := by
  refine ⟨⟨rfl, rfl, rfl, rfl, rfl, ?_⟩, ⟨rfl, rfl, rfl, rfl, rfl, ?_⟩, rfl⟩ <;>
    simp [GeigerState.reset, GeigerState.snapshot]

/-! ### Running mean (claim C8) -/

theorem runningMeanAux_length (ps : List ℕ) :
    ∀ (s : ℚ) (i : ℕ), (runningMeanAux s i ps).length = ps.length := by
  induction ps with
  | nil => intro s i; rfl
  | cons c rest ih => intro s i; simp [runningMeanAux, ih]

theorem runningMeanAux_getD (ps : List ℕ) :
    ∀ (s : ℚ) (i j : ℕ), j < ps.length →
      (runningMeanAux s i ps).getD j 0 =
        (s + ((ps.take (j + 1)).sum : ℚ)) / ((i : ℚ) + (j : ℚ) + 1) := by
  induction ps with
  | nil => intro s i j h; simp at h
  | cons c rest ih =>
      intro s i j h
      cases j with
      | zero =>
          simp only [runningMeanAux, List.getD_cons_zero, List.take_succ_cons,
            List.take_zero, List.sum_cons, List.sum_nil]
          push_cast
          ring
      | succ j =>
          have hj : j < rest.length := by simpa using h
          simp only [runningMeanAux, List.getD_cons_succ, List.take_succ_cons,
            List.sum_cons]
          rw [ih (s + c) (i + 1) j hj]
          push_cast
          ring

/-- C8: `snapshot` returns `running_mean` of the same length as `per_second`,
with `running_mean[i]` the sum of `per_second[0..i]` divided by `i + 1`. -/
theorem snapshot_running_mean (s : GeigerState) (now : ℚ) :
    (s.snapshot now).running_mean.length = (s.snapshot now).per_second.length ∧
      ∀ i, i < (s.snapshot now).per_second.length →
        (s.snapshot now).running_mean.getD i 0 =
          ((((s.snapshot now).per_second.take (i + 1)).sum : ℕ) : ℚ) /
            ((i : ℚ) + 1) := by
  have hps : (s.snapshot now).per_second = s.per_second := rfl
  have hrm : (s.snapshot now).running_mean = runningMean s.per_second := rfl
  constructor
  · rw [hps, hrm, runningMean, runningMeanAux_length]
  · intro i h
    rw [hps, hrm, runningMean,
      runningMeanAux_getD s.per_second 0 0 i (by rwa [hps] at h)]
    push_cast
    ring

/-- Witness for `snapshot_running_mean`: a state with `per_second = [2, 4]`
has `running_mean[1] = (2 + 4) / 2 = 3`. -/
theorem snapshot_running_mean_witness :
    ((⟨0, 0, none, [], [2, 4], 0⟩ : GeigerState).snapshot 0).running_mean.getD 1 0 =
      (((((⟨0, 0, none, [], [2, 4], 0⟩ : GeigerState).snapshot 0).per_second.take
          (1 + 1)).sum : ℕ) : ℚ) / (((1 : ℕ) : ℚ) + 1) :=
  (snapshot_running_mean ⟨0, 0, none, [], [2, 4], 0⟩ 0).2 1 (by
    show 1 < ([2, 4] : List ℕ).length
    decide)

/-! ### Last pulse age (claim C9) -/

/-- C9, counterexample: a pulse at timestamp `0` makes `total = 1` and
`last_ts = some 0`, yet `snapshot` reports `last_age = none` rather than
`now − last_ts` (the code tests the Python TRUTHINESS of `last_ts`, and
`0.0` is falsy). -/
theorem c9_zero_timestamp_pulse_hides_age :
    1 ≤ ((freshState 0).on_pulse ⟨2000, 3600⟩ 0).total ∧
      ((freshState 0).on_pulse ⟨2000, 3600⟩ 0).last_ts = some 0 ∧
      (((freshState 0).on_pulse ⟨2000, 3600⟩ 0).snapshot 5).last_age = none ∧
      ¬ ((((freshState 0).on_pulse ⟨2000, 3600⟩ 0).snapshot 5).last_age =
          some (5 - 0)) := by
  refine ⟨le_refl 1, rfl, ?_, ?_⟩ <;>
    simp [GeigerState.snapshot, GeigerState.on_pulse, freshState]

/-- C9 (amended): `snapshot` returns `last_age = now − last_ts` whenever a
pulse has been recorded with a NONZERO timestamp; it returns `none` when no
pulse has occurred, and also — a Python-truthiness artefact — when the
recorded `last_ts` equals `0`. -/
theorem snapshot_last_age (s : GeigerState) (now : ℚ) :
    (s.last_ts = none → (s.snapshot now).last_age = none) ∧
      (∀ lt, s.last_ts = some lt → lt ≠ 0 →
        (s.snapshot now).last_age = some (now - lt)) ∧
      (s.last_ts = some 0 → (s.snapshot now).last_age = none) := by
  refine ⟨fun h => ?_, fun lt h hne => ?_, fun h => ?_⟩ <;>
    simp [GeigerState.snapshot, h]
  exact hne

/-- Witness for `snapshot_last_age`: a state with `last_ts = some 1` observed
at `now = 5` reports `last_age = some 4`. -/
theorem snapshot_last_age_witness :
    ((⟨0, 1, some 1, [], [], 1⟩ : GeigerState).snapshot 5).last_age =
      some (5 - 1) :=
  (snapshot_last_age ⟨0, 1, some 1, [], [], 1⟩ 5).2.1 1 rfl (by norm_num)

/-! ### Out-of-order pulses (claim C4) -/

/-- C4: with a previously recorded timestamp `lt`, a pulse at `ts < lt`
still increments `total`, still overwrites `last_ts`, still increments the
open-bin counter, but appends nothing to `deltas`; with `ts ≥ lt` it
additionally appends the single delta `ts − lt` (the buffer being trimmed by
evicting oldest entries), which becomes the last stored delta. -/
theorem on_pulse_with_previous (cfg : GeigerConfig) (s : GeigerState)
    (ts lt : ℚ) (h : s.last_ts = some lt) :
    (s.on_pulse cfg ts).total = s.total + 1 ∧
      (s.on_pulse cfg ts).last_ts = some ts ∧
      (s.on_pulse cfg ts).current_second_count = s.current_second_count + 1 ∧
      (ts < lt → (s.on_pulse cfg ts).deltas = s.deltas) ∧
      (lt ≤ ts →
        (s.on_pulse cfg ts).deltas =
            capList cfg.max_deltas (s.deltas ++ [ts - lt]) ∧
          (s.on_pulse cfg ts).deltas.getLast? = some (ts - lt)) := by
  refine ⟨on_pulse_total cfg s ts, on_pulse_last_ts cfg s ts,
    on_pulse_count cfg s ts, fun hlt => on_pulse_deltas_of_lt cfg h hlt,
    fun hge => ⟨on_pulse_deltas_of_ge cfg h hge, ?_⟩⟩
  rw [on_pulse_deltas_of_ge cfg h hge]
  exact capList_concat_getLast _ _ _

/-- Witness for `on_pulse_with_previous`: the state after one pulse at `1`
(so `last_ts = some 1`) receiving a pulse at `3`. -/
theorem on_pulse_with_previous_witness :
    ((freshState 0).on_pulse ⟨2000, 3600⟩ 1).last_ts = some 1 ∧
      ((((freshState 0).on_pulse ⟨2000, 3600⟩ 1).on_pulse ⟨2000, 3600⟩ 3).total =
          ((freshState 0).on_pulse ⟨2000, 3600⟩ 1).total + 1 ∧
        (((freshState 0).on_pulse ⟨2000, 3600⟩ 1).on_pulse ⟨2000, 3600⟩ 3).last_ts =
          some 3 ∧
        (((freshState 0).on_pulse ⟨2000, 3600⟩ 1).on_pulse
            ⟨2000, 3600⟩ 3).current_second_count =
          ((freshState 0).on_pulse ⟨2000, 3600⟩ 1).current_second_count + 1 ∧
        ((3 : ℚ) < 1 →
          (((freshState 0).on_pulse ⟨2000, 3600⟩ 1).on_pulse ⟨2000, 3600⟩ 3).deltas =
            ((freshState 0).on_pulse ⟨2000, 3600⟩ 1).deltas) ∧
        ((1 : ℚ) ≤ 3 →
          (((freshState 0).on_pulse ⟨2000, 3600⟩ 1).on_pulse ⟨2000, 3600⟩ 3).deltas =
              capList (⟨2000, 3600⟩ : GeigerConfig).max_deltas
                (((freshState 0).on_pulse ⟨2000, 3600⟩ 1).deltas ++ [3 - 1]) ∧
            (((freshState 0).on_pulse ⟨2000, 3600⟩ 1).on_pulse
                ⟨2000, 3600⟩ 3).deltas.getLast? = some (3 - 1))) :=
  ⟨rfl, on_pulse_with_previous ⟨2000, 3600⟩ ((freshState 0).on_pulse ⟨2000, 3600⟩ 1)
    3 1 rfl⟩

/-! ### Closing one-second bins (claim C10) -/

theorem tickIter_zero_bins (cfg : GeigerConfig) :
    ∀ (k : ℕ) (s : GeigerState), s.current_second_count = 0 →
      s.per_second.length + k ≤ cfg.max_series →
      (tickIter cfg k s).per_second = s.per_second ++ List.replicate k 0 := by
  intro k
  induction k with
  | zero => intro s _ _; simp [tickIter]
  | succ k ih =>
      intro s h hlen
      have htick : (s.tick_second cfg).per_second = s.per_second ++ [0] := by
        show capList cfg.max_series (s.per_second ++ [s.current_second_count]) =
          s.per_second ++ [0]
        rw [h]
        exact capList_of_length_le _ (by simp; omega)
      have hrec : tickIter cfg (k + 1) s = tickIter cfg k (s.tick_second cfg) :=
        rfl
      rw [hrec, ih (s.tick_second cfg) rfl (by rw [htick]; simp; omega), htick]
      simp [List.replicate_succ]

/-- C10: `tick_second` appends exactly the open-bin count (possibly zero,
the buffer being trimmed by evicting oldest entries) and zeroes the counter;
from a fresh state, `k ≤ max_series` ticks with no intervening pulses leave
`per_second` equal to `k` zeros. -/
theorem tick_second_bins (cfg : GeigerConfig) (s : GeigerState) (now : ℚ)
    (k : ℕ) (hk : k ≤ cfg.max_series) :
    (s.tick_second cfg).per_second =
        capList cfg.max_series (s.per_second ++ [s.current_second_count]) ∧
      (s.tick_second cfg).current_second_count = 0 ∧
      (tickIter cfg k (freshState now)).per_second = List.replicate k 0 := by
  refine ⟨rfl, rfl, ?_⟩
  have := tickIter_zero_bins cfg k (freshState now) rfl
    (by simp [freshState]; omega)
  simpa [freshState] using this

/-- Witness for `tick_second_bins`: two ticks of a fresh state with the
default capacity `3600` record two empty seconds; a state with an open-bin
count of `5` has that count appended by `tick_second`. -/
theorem tick_second_bins_witness :
    ((⟨0, 5, none, [], [], 5⟩ : GeigerState).tick_second ⟨2000, 3600⟩).per_second =
        capList (⟨2000, 3600⟩ : GeigerConfig).max_series
          (((⟨0, 5, none, [], [], 5⟩ : GeigerState)).per_second ++
            [((⟨0, 5, none, [], [], 5⟩ : GeigerState)).current_second_count]) ∧
      ((⟨0, 5, none, [], [], 5⟩ : GeigerState).tick_second
          ⟨2000, 3600⟩).current_second_count = 0 ∧
      (tickIter ⟨2000, 3600⟩ 2 (freshState 0)).per_second = List.replicate 2 0 :=
  tick_second_bins ⟨2000, 3600⟩ ⟨0, 5, none, [], [], 5⟩ 0 2 (by decide)

/-! ### Broadcast hub (claim C5)

`WSManager.broadcast` (app.py lines 134-146, identically main.py lines
39-51) snapshots the registered set, attempts `send_json` on each member,
collects the ones that raise into `dead`, and after the round discards each
dead member from the registry.  Whether a given subscriber's delivery
succeeds is abstracted by a predicate `ok`. -/

/-- The registry of a `WSManager` (its `clients` set), modelled as a list of
subscriber handles. -/
structure WSManager (C : Type) where
  clients : List C

/-- Python `set.discard`: remove an element from the registry. -/
def pyDiscard [DecidableEq C] (cs : List C) (ws : C) : List C :=
  cs.filter (fun c => c ≠ ws)

/-- The delivery loop of `broadcast`: attempt each subscriber in snapshot
order, returning the pair (subscribers that received the message,
subscribers whose delivery raised = the `dead` list). -/
def deliverRound (ok : C → Bool) : List C → List C × List C
  | [] => ([], [])
  | ws :: rest =>
      let r := deliverRound ok rest
      if ok ws then (ws :: r.1, r.2) else (r.1, ws :: r.2)

/-- `WSManager.broadcast`: returns the list of subscribers that received the
message together with the manager after the dead ones are discarded. -/
def WSManager.broadcast [DecidableEq C] (m : WSManager C) (ok : C → Bool) :
    List C × WSManager C :=
  let round := deliverRound ok m.clients
  (round.1, ⟨round.2.foldl pyDiscard m.clients⟩)

theorem deliverRound_eq (ok : C → Bool) (cs : List C) :
    deliverRound ok cs = (cs.filter ok, cs.filter (fun c => !(ok c))) := by
  induction cs with
  | nil => rfl
  | cons ws rest ih =>
      cases hok : ok ws <;> simp [deliverRound, ih, List.filter_cons, hok]

theorem mem_foldl_pyDiscard [DecidableEq C] :
    ∀ (ds cs : List C) (c : C),
      c ∈ ds.foldl pyDiscard cs ↔ c ∈ cs ∧ c ∉ ds := by
  intro ds
  induction ds with
  | nil => simp
  | cons d rest ih =>
      intro cs c
      rw [List.foldl_cons, ih]
      simp only [pyDiscard, List.mem_filter, List.mem_cons, decide_eq_true_eq]
      tauto

/-- C5: during a broadcast every subscriber registered at the start of the
round is attempted (it ends up delivered or dead) regardless of other
failures, every subscriber whose delivery succeeds receives the message, and
every subscriber that failed is absent from the registry used by the next
broadcast. -/
theorem broadcast_failure_isolated {C : Type} [DecidableEq C]
    (m : WSManager C) (ok : C → Bool) (c : C) (hc : c ∈ m.clients) :
    (c ∈ (m.broadcast ok).1 ∨ c ∈ (deliverRound ok m.clients).2) ∧
      (ok c = true → c ∈ (m.broadcast ok).1) ∧
      (ok c = false → c ∉ ((m.broadcast ok).2).clients) := by
  have hdead : (deliverRound ok m.clients).2 =
      m.clients.filter (fun x => !(ok x)) := by rw [deliverRound_eq]
  have hdel : (m.broadcast ok).1 = m.clients.filter ok := by
    simp [WSManager.broadcast, deliverRound_eq]
  have hnew : ∀ x, x ∈ ((m.broadcast ok).2).clients ↔
      x ∈ m.clients ∧ x ∉ m.clients.filter (fun y => !(ok y)) := by
    intro x
    simp only [WSManager.broadcast, deliverRound_eq, mem_foldl_pyDiscard]
  refine ⟨?_, fun h => ?_, fun h hmem => ?_⟩
  · cases hok : ok c
    · right
      rw [hdead]
      exact List.mem_filter.2 ⟨hc, by simp [hok]⟩
    · left
      rw [hdel]
      exact List.mem_filter.2 ⟨hc, hok⟩
  · rw [hdel]
    exact List.mem_filter.2 ⟨hc, h⟩
  · rw [hnew] at hmem
    exact hmem.2 (List.mem_filter.2 ⟨hc, by simp [h]⟩)

/-- Witness for `broadcast_failure_isolated`: three subscribers `0, 1, 2`
with delivery to `1` failing — `0` and `2` receive the message and `1` is
absent from the registry afterwards. -/
theorem broadcast_failure_isolated_witness :
    (0 ∈ ((⟨[0, 1, 2]⟩ : WSManager ℕ).broadcast (fun c => c != 1)).1) ∧
      (2 ∈ ((⟨[0, 1, 2]⟩ : WSManager ℕ).broadcast (fun c => c != 1)).1) ∧
      (1 ∉ (((⟨[0, 1, 2]⟩ : WSManager ℕ).broadcast (fun c => c != 1)).2).clients) :=
  ⟨(broadcast_failure_isolated ⟨[0, 1, 2]⟩ (fun c => c != 1) 0 (by decide)).2.1
      (by decide),
    (broadcast_failure_isolated ⟨[0, 1, 2]⟩ (fun c => c != 1) 2 (by decide)).2.1
      (by decide),
    (broadcast_failure_isolated ⟨[0, 1, 2]⟩ (fun c => c != 1) 1 (by decide)).2.2
      (by decide)⟩

/-! ### Pulse source startup (claim C6) -/

/-- Which pulse generator ends up running. -/
inductive SourceKind
  | hardware
  | mock
  deriving DecidableEq, Repr

/-- `start_geiger_reader` (app.py lines 165-219): if the mock env flag is
set, start the synthetic thread; otherwise attempt the gpiozero hardware
acquisition (modelled by the `acquire` argument) and, if it raises ANY
exception, print a warning and start the synthetic thread instead — the
failure is never re-raised.  The boolean in the result records whether the
warning was printed. -/
def start_geiger_reader {E : Type} (mockEnv : Bool) (acquire : Except E Unit) :
    Except E (SourceKind × Bool) :=
  if mockEnv then Except.ok (SourceKind.mock, false)
  else
    match acquire with
    | Except.ok _ => Except.ok (SourceKind.hardware, false)
    | Except.error _ => Except.ok (SourceKind.mock, true)

/-- `GeigerReader.start` (geiger.py lines 122-157): if `cfg.mock`, start the
synthetic thread; otherwise register edge detection (modelled by the
`addEvent` argument) and, if that raises, RE-RAISE it as a `RuntimeError` —
there is no fallback in this variant. -/
def GeigerReader.start {E : Type} (mock : Bool) (addEvent : Except E Unit) :
    Except String SourceKind :=
  if mock then Except.ok SourceKind.mock
  else
    match addEvent with
    | Except.ok _ => Except.ok SourceKind.hardware
    | Except.error _ => Except.error "Failed to add edge detection on GPIO"

/-- C6, counterexample: the RPi.GPIO pulse-source start operation
(`GeigerReader.start`, used by main.py's startup hook with no handler)
PROPAGATES a hardware acquisition failure instead of falling back. -/
theorem c6_reader_start_propagates :
    (GeigerReader.start false (Except.error "boom")).isOk = false := rfl

/-- C6 (amended to app.py's `start_geiger_reader`): whatever exception
hardware acquisition raises, `start_geiger_reader` returns successfully,
running the synthetic variant with the warning logged; and it never
propagates a failure for any input. -/
theorem start_geiger_reader_falls_back {E : Type} (e : E) :
    start_geiger_reader false (Except.error e) =
        Except.ok (SourceKind.mock, true) ∧
      ∀ (mockEnv : Bool) (acquire : Except E Unit),
        (start_geiger_reader mockEnv acquire).isOk = true := by
  refine ⟨rfl, fun mockEnv acquire => ?_⟩
  cases mockEnv <;> cases acquire <;> rfl

end Geiger
